import Mathlib

/-!
# Verification of the MOE frame-dispatch and worker-coordination layer

A shallow embedding of the dispatch server (`mentatSampo/serverMain.py`),
the worker base class (`mentatSampo/experts/baseWorker.py`) and the
resolution helpers (`mentatSampo/utils/resolution.py`), together with
theorems settling the behavioural claims about frame routing, result
aggregation, queue backpressure and frame resizing.
-/

set_option autoImplicit false

namespace Moe

/-- JSON-style values: the results produced by expert workers and the
messages exchanged with clients are Python dicts serialised with
`json.dumps`; we model them as a small JSON value type. -/
inductive JVal where
  | s (v : String)
  | n (v : ℚ)
  | b (v : Bool)
  | arr (vs : List JVal)
  | obj (fields : List (String × JVal))

/-- A decoded video frame.  Only the shape (`frame.shape[:2]` =
`(height, width)`) is relevant to the dispatch layer, which never reads
pixel data; it only resizes frames and forwards them. -/
structure Frame where
  height : Nat
  width : Nat
deriving DecidableEq, Repr

/-- Python `int()` applied to a rational: truncation toward zero. -/
def pyInt (q : ℚ) : ℤ :=
  if 0 ≤ q then ⌊q⌋ else ⌈q⌉

/-- `utils/resolution.py`, `resize_frame_for_processing(frame, scale_factor)`:
returns the frame unchanged when it is `None` or the scale factor is `<= 0`;
otherwise resizes to `(int(width*scale), int(height*scale))`.
`None` is modelled by `Option`. -/
def resize_frame_for_processing (frame : Option Frame) (scale_factor : ℚ) :
    Option Frame :=
  match frame with
  | none => none
  | some f =>
    if scale_factor ≤ 0 then some f
    else
      let new_width := pyInt ((f.width : ℚ) * scale_factor)
      let new_height := pyInt ((f.height : ℚ) * scale_factor)
      some { height := new_height.toNat, width := new_width.toNat }

/-- A job placed on a worker queue (`BaseWorker.add_job` builds the dict
`{camera_id, frame, timestamp, callback}`).  The callback is opaque
(an async closure), so we record only whether one was supplied. -/
structure Job where
  camera_id : String
  frame : Option Frame
  timestamp : ℚ
  has_callback : Bool
deriving DecidableEq, Repr

/-- State of a `BaseWorker` (`experts/baseWorker.py`): its name, the
contents of its `asyncio.Queue(maxsize=100)` in FIFO order, the queue
capacity, and the `frame_count` statistic.  These are the only mutable
fields the dispatch layer touches (besides `start_time`, which only feeds
the FPS statistic). -/
structure BaseWorker where
  name : String
  job_queue : List Job
  maxsize : Nat
  frame_count : Nat
deriving DecidableEq, Repr

/-- `BaseWorker.__init__`: empty queue of capacity 100, zero frames. -/
def BaseWorker.init (worker_name : String) : BaseWorker :=
  { name := worker_name, job_queue := [], maxsize := 100, frame_count := 0 }

/-- `BaseWorker.add_job`: build the job, then `put_nowait`.  The put
succeeds exactly when the queue is below capacity; on `asyncio.QueueFull`
a warning is printed and `False` is returned with the worker unchanged. -/
def BaseWorker.add_job (w : BaseWorker) (camera_id : String)
    (frame : Option Frame) (timestamp : ℚ) (has_callback : Bool) :
    BaseWorker × Bool :=
  let job : Job := { camera_id := camera_id, frame := frame,
                     timestamp := timestamp, has_callback := has_callback }
  if w.job_queue.length < w.maxsize then
    ({ w with job_queue := w.job_queue ++ [job] }, true)
  else
    (w, false)

/-- Observable outcome of one iteration of `BaseWorker.process_loop`. -/
structure LoopIter where
  worker : BaseWorker
  /-- Invocations of `job["callback"](camera_id, self.name, result)`. -/
  callback_calls : List (String × String × JVal)
  /-- Error lines printed by the `except` branch. -/
  errors_logged : List String
  /-- Whether the `while True` loop goes on to the next job. -/
  continues : Bool

/-- One iteration of `BaseWorker.process_loop`: dequeue a job (suspending
— `none` — on an empty queue), run `process_frame` (modelled by `pf`,
returning `Except.error` when it raises), and on success bump
`frame_count` and invoke the callback if present.  The `except` branch
prints the error, calls `task_done`, and the loop continues either way. -/
def BaseWorker.process_loop_iter (w : BaseWorker)
    (pf : Job → Except String JVal) : Option LoopIter :=
  match w.job_queue with
  | [] => none
  | job :: rest =>
    match pf job with
    | Except.ok result =>
      some { worker := { w with job_queue := rest,
                                frame_count := w.frame_count + 1 },
             callback_calls :=
               if job.has_callback then [(job.camera_id, w.name, result)] else [],
             errors_logged := [],
             continues := true }
    | Except.error e =>
      some { worker := { w with job_queue := rest },
             callback_calls := [],
             errors_logged := [w.name ++ " Worker error: " ++ e],
             continues := true }

/-- One entry of the global `AI_MODELS` dict: `{"enabled": ..., "name": ...}`. -/
structure ModelToggle where
  enabled : Bool
  display_name : String
deriving DecidableEq, Repr

/-- The global `AI_MODELS` registry, a Python dict in insertion order. -/
abbrev Registry := List (String × ModelToggle)

/-- Python dict read `m[k]` / `m.get(k)`: first (and in a dict, only)
binding of the key. -/
def lookupD {α : Type} (m : List (String × α)) (k : String) : Option α :=
  match m with
  | [] => none
  | (k₀, v) :: rest => if k₀ = k then some v else lookupD rest k

/-- Python dict assignment `m[k] = v`: update in place if the key is
present, otherwise append the new binding. -/
def dictSet {α : Type} (m : List (String × α)) (k : String) (v : α) :
    List (String × α) :=
  match m with
  | [] => [(k, v)]
  | (k₀, v₀) :: rest =>
    if k₀ = k then (k, v) :: rest else (k₀, v₀) :: dictSet rest k v

/-- The `toggle_model` Flask route (`serverMain.py`): a 404 (modelled as
`false`) if the model is unknown; otherwise set
`AI_MODELS[model_name]["enabled"]` to the requested value, defaulting to
the negation of the current value when the request carries none. -/
def toggle_model (reg : Registry) (model_name : String)
    (req_enabled : Option Bool) : Registry × Bool :=
  match lookupD reg model_name with
  | none => (reg, false)
  | some t =>
    (dictSet reg model_name
      { t with enabled := req_enabled.getD (!t.enabled) }, true)

/-- Python `str.lower()` (the worker names involved are ASCII). -/
def pyLower (s : String) : String :=
  String.mk (s.data.map Char.toLower)

/-- The enabled-worker computation at the top of
`route_frame_to_workers`: keep a worker iff `worker_name.lower()` is a
key of `AI_MODELS` whose `enabled` flag is set.  `workers` is the key
list of `self.workers`. -/
def enabled_workers (workers : List String) (reg : Registry) : List String :=
  workers.filter (fun worker_name =>
    match lookupD reg (pyLower worker_name) with
    | some t => t.enabled
    | none => false)

/-- A pending fan-out aggregate: the closure state of `collect_result`
(`results` dict and `pending_workers` set, the latter kept as the list of
names still outstanding). -/
structure Aggregate where
  results : List (String × JVal)
  pending : List String


/-- `collect_result(cam_id, worker_name, result)`: store the result,
discard the name from the pending set, and send the combined result
(the current `results` dict) exactly when the pending set is now empty.
Returns the new state and whether a combined send happened. -/
def collect_result (agg : Aggregate) (worker_name : String) (result : JVal) :
    Aggregate × Bool :=
  let results := dictSet agg.results worker_name result
  let pending := agg.pending.filter (fun m => m ≠ worker_name)
  ({ results := results, pending := pending }, pending.isEmpty)

/-- Run `collect_result` over a sequence of worker completions, returning
the final aggregate state and the list of combined `results` maps sent
(in order).  These callbacks are the only place a combined result is ever
sent for a dispatched frame. -/
def run_collect (agg : Aggregate) (events : List (String × JVal)) :
    Aggregate × List (List (String × JVal)) :=
  match events with
  | [] => (agg, [])
  | (n, r) :: rest =>
    let step := collect_result agg n r
    let restRun := run_collect step.1 rest
    (restRun.1, (if step.2 then [step.1.results] else []) ++ restRun.2)

/-- A message sent on the client websocket by the fan-out path. -/
inductive SentMsg where
  /-- The short-circuit reply `{"camera_id": ..., "results": {}, "timestamp": ...}`. -/
  | emptyResult (camera_id : String) (timestamp : ℚ)
  | errorMsg (text : String)
deriving DecidableEq, Repr

/-- What `route_frame_to_workers` does synchronously at dispatch time. -/
structure DispatchOutcome where
  /-- Messages sent to the client during the dispatch itself. -/
  sent : List SentMsg
  /-- Workers on which `add_job` is invoked (its boolean result is ignored). -/
  jobs : List String
  /-- The resized frame handed to every submitted job. -/
  processed : Option Frame
  /-- The pending aggregate created for the frame, if any. -/
  aggregate : Option Aggregate

/-- `route_frame_to_workers(camera_id, frame, websocket)`: compute the
enabled workers from the live `AI_MODELS` registry; if none are enabled,
immediately send the empty result and stop; otherwise resize the frame
once and submit a job (with the `collect_result` callback) to every
enabled worker, with the pending set initialised to the enabled names. -/
def route_frame_to_workers (workers : List String) (reg : Registry)
    (camera_id : String) (frame : Option Frame) (scale_factor ts : ℚ) :
    DispatchOutcome :=
  if (enabled_workers workers reg).isEmpty then
    { sent := [SentMsg.emptyResult camera_id ts],
      jobs := [], processed := none, aggregate := none }
  else
    { sent := [],
      jobs := enabled_workers workers reg,
      processed := resize_frame_for_processing frame scale_factor,
      aggregate := some { results := [],
                          pending := enabled_workers workers reg } }

/-- The submission loop at the end of `route_frame_to_workers`, evaluated
against the workers' queue states: the subset of the enabled workers
whose `add_job` accepted the job (returned `True`).  Only these workers
ever hold the job, so only they can later invoke `collect_result` for it;
the `False` results are ignored by the loop. -/
def submit_jobs (queues : String → BaseWorker) (enabled : List String)
    (camera_id : String) (processed : Option Frame) (ts : ℚ) : List String :=
  enabled.filter (fun n => ((queues n).add_job camera_id processed ts true).2)

/-- Outcome of `route_frame_to_expert` at dispatch time. -/
inductive ExpertDispatch where
  /-- `{"error": "Expert ... not available"}` sent back immediately. -/
  | errorMsg (text : String)
  /-- The job submitted to the named worker (callback `send_result`). -/
  | submitted (job : Job)
deriving DecidableEq, Repr

/-- `route_frame_to_expert(camera_id, frame, expert_type, websocket)`:
reject unknown experts with an error message; otherwise resize the frame
and submit it to the named worker with the `send_result` callback. -/
def route_frame_to_expert (workers : List String) (camera_id : String)
    (frame : Option Frame) (expert_type : String) (scale_factor ts : ℚ) :
    ExpertDispatch :=
  if workers.contains expert_type then
    ExpertDispatch.submitted
      { camera_id := camera_id,
        frame := resize_frame_for_processing frame scale_factor,
        timestamp := ts, has_callback := true }
  else
    ExpertDispatch.errorMsg ("Expert " ++ expert_type ++ " not available")

/-- A completed single-expert request: the frame is dispatched with
`route_frame_to_expert`, the named worker's `process_frame` runs on the
submitted job, and the `send_result` callback sends the worker's result
to the client verbatim (`websocket.send(json.dumps(result))`).  `none`
when the expert is unknown (an error reply instead). -/
def single_expert_exchange (workers : List (String × (Job → JVal)))
    (camera_id : String) (frame : Option Frame) (expert_type : String)
    (scale_factor ts : ℚ) : Option JVal :=
  match route_frame_to_expert (workers.map Prod.fst) camera_id frame
      expert_type scale_factor ts with
  | ExpertDispatch.errorMsg _ => none
  | ExpertDispatch.submitted job =>
    match lookupD workers expert_type with
    | none => none
    | some pf => some (pf job)

/-- Modelled from the spec: the `YOLOWorker` class that `serverMain.py`
imports (`from experts.serverYolo import YOLOWorker`) is absent from the
sources — only the abstract `BaseWorker` and a standalone
`YOLOWebSocketServer` are present.  Per the spec, a single-expert
response is the raw `ExpertResult` payload: the worker-specific fields
(for yolo, a `detections` list) plus `fps` and `camera_id`.  The
detection inference itself is an external capability, modelled by the
`infer` parameter. -/
def YOLOWorker.process_frame (infer : Option Frame → List JVal) (fps : ℚ)
    (job : Job) : JVal :=
  JVal.obj [("detections", JVal.arr (infer job.frame)),
            ("fps", JVal.n fps),
            ("camera_id", JVal.s job.camera_id)]

/-! ## Dictionary lemmas -/

theorem lookupD_dictSet_self {α : Type} (m : List (String × α)) (k : String)
    (v : α) : lookupD (dictSet m k v) k = some v := by
  induction m with
  | nil => simp [dictSet, lookupD]
  | cons p rest ih =>
    obtain ⟨k₀, v₀⟩ := p
    by_cases h : k₀ = k
    · simp [dictSet, lookupD, h]
    · simp [dictSet, lookupD, h, ih]

theorem dictSet_of_lookupD_none {α : Type} (m : List (String × α)) (k : String)
    (v : α) (h : lookupD m k = none) : dictSet m k v = m ++ [(k, v)] := by
  induction m with
  | nil => simp [dictSet]
  | cons p rest ih =>
    obtain ⟨k₀, v₀⟩ := p
    by_cases hk : k₀ = k
    · simp [lookupD, hk] at h
    · simp [lookupD, hk] at h
      simp [dictSet, hk, ih h]

theorem lookupD_append {α : Type} (m₁ m₂ : List (String × α)) (k : String) :
    lookupD (m₁ ++ m₂) k = (lookupD m₁ k).orElse (fun _ => lookupD m₂ k) := by
  induction m₁ with
  | nil => simp [lookupD]
  | cons p rest ih =>
    obtain ⟨k₀, v₀⟩ := p
    by_cases h : k₀ = k
    · simp [lookupD, h]
    · simp [lookupD, h, ih]

/-! ## Aggregate-collection lemmas -/

/-- If some worker of the pending set never reports, no combined result is
ever sent: its name is never discarded, so the pending set never empties. -/
theorem run_collect_sends_nil (events : List (String × JVal)) (agg : Aggregate)
    (r : String) (hr : r ∈ agg.pending) (hnot : r ∉ events.map Prod.fst) :
    (run_collect agg events).2 = [] := by
  induction events generalizing agg with
  | nil => rfl
  | cons e rest ih =>
    obtain ⟨n, x⟩ := e
    simp only [List.map_cons, List.mem_cons, not_or] at hnot
    have hrn : r ≠ n := hnot.1
    have hmem : r ∈ agg.pending.filter (fun m => m ≠ n) := by
      simp [List.mem_filter, hr, hrn]
    have hne : (agg.pending.filter (fun m => m ≠ n)).isEmpty = false := by
      rcases hfe : agg.pending.filter (fun m => m ≠ n) with _ | ⟨a, l⟩
      · rw [hfe] at hmem; cases hmem
      · rfl
    simp only [run_collect, collect_result, hne, Bool.false_eq_true,
      if_false, List.nil_append]
    exact ih { results := dictSet agg.results n x,
               pending := agg.pending.filter (fun m => m ≠ n) } hmem hnot.2

/-- Each pending worker reporting at most once, at most one combined
result is sent over any completion sequence. -/
theorem run_collect_length_le_one (events : List (String × JVal))
    (agg : Aggregate) (hnd : (events.map Prod.fst).Nodup)
    (hsub : ∀ n ∈ events.map Prod.fst, n ∈ agg.pending) :
    ((run_collect agg events).2).length ≤ 1 := by
  induction events generalizing agg with
  | nil => simp [run_collect]
  | cons e rest ih =>
    obtain ⟨n, x⟩ := e
    simp only [List.map_cons, List.nodup_cons] at hnd
    rcases hemp : (agg.pending.filter (fun m => m ≠ n)).isEmpty with _ | _
    · simp only [run_collect, collect_result, hemp, Bool.false_eq_true,
        if_false, List.nil_append]
      refine ih _ hnd.2 ?_
      intro m hm
      simp only [List.mem_filter, decide_eq_true_eq]
      refine ⟨hsub m (by simp [hm]), ?_⟩
      intro hcontra
      exact hnd.1 (hcontra ▸ hm)
    · have hrest : rest = [] := by
        have hfil := List.isEmpty_iff.mp hemp
        rcases rest with _ | ⟨⟨m, y⟩, rest'⟩
        · rfl
        · exfalso
          have hmmem : m ∈ agg.pending := hsub m (by simp)
          have hmn : m ≠ n := by
            intro hcontra
            exact hnd.1 (by simp [hcontra])
          have : m ∈ agg.pending.filter (fun k => k ≠ n) := by
            simp [List.mem_filter, hmmem, hmn]
          rw [hfil] at this
          cases this
      subst hrest
      simp only [run_collect, collect_result]
      split <;> simp

/-- If every pending worker reports exactly once, exactly one combined
result is sent, and it is the initial results dict extended by the
reported results in arrival order. -/
theorem run_collect_complete (events : List (String × JVal)) (agg : Aggregate)
    (hne : agg.pending ≠ [])
    (hnd : (events.map Prod.fst).Nodup)
    (hsub : ∀ n ∈ events.map Prod.fst, n ∈ agg.pending)
    (hcov : ∀ n ∈ agg.pending, n ∈ events.map Prod.fst)
    (hfresh : ∀ n ∈ events.map Prod.fst, lookupD agg.results n = none) :
    (run_collect agg events).2 = [agg.results ++ events] := by
  induction events generalizing agg with
  | nil =>
    exfalso
    rcases hpend : agg.pending with _ | ⟨a, l⟩
    · exact hne hpend
    · have := hcov a (by rw [hpend]; simp)
      cases this
  | cons e rest ih =>
    obtain ⟨n, x⟩ := e
    simp only [List.map_cons, List.nodup_cons] at hnd
    have hn : n ∈ agg.pending := hsub n (by simp)
    have hres : dictSet agg.results n x = agg.results ++ [(n, x)] :=
      dictSet_of_lookupD_none _ _ _ (hfresh n (by simp))
    rcases hemp : (agg.pending.filter (fun m => m ≠ n)).isEmpty with _ | _
    · simp only [run_collect, collect_result, hemp, Bool.false_eq_true,
        if_false, List.nil_append]
      have hstep : (run_collect
          { results := dictSet agg.results n x,
            pending := agg.pending.filter (fun m => m ≠ n) } rest).2
          = [dictSet agg.results n x ++ rest] := by
        refine ih _ ?_ hnd.2 ?_ ?_ ?_
        · intro hcontra
          have hcontra₂ :
              agg.pending.filter (fun m => m ≠ n) = [] := hcontra
          rw [hcontra₂] at hemp
          simp at hemp
        · intro m hm
          simp only [List.mem_filter, decide_eq_true_eq]
          refine ⟨hsub m (by simp [hm]), ?_⟩
          intro hcontra
          exact hnd.1 (hcontra ▸ hm)
        · intro m hm
          simp only [List.mem_filter, decide_eq_true_eq] at hm
          have := hcov m hm.1
          simp only [List.map_cons, List.mem_cons] at this
          rcases this with h | h
          · exact absurd h hm.2
          · exact h
        · intro m hm
          rw [hres, lookupD_append]
          have hm₁ : lookupD agg.results m = none := hfresh m (by simp [hm])
          have hmn : m ≠ n := by
            intro hcontra
            exact hnd.1 (hcontra ▸ hm)
          have hnm : ¬ n = m := fun hcontra => hmn hcontra.symm
          simp [hm₁, lookupD, hnm]
      rw [hstep, hres]
      simp
    · have hfil := List.isEmpty_iff.mp hemp
      have hrest : rest = [] := by
        rcases rest with _ | ⟨⟨m, y⟩, rest'⟩
        · rfl
        · exfalso
          have hmmem : m ∈ agg.pending := hsub m (by simp)
          have hmn : m ≠ n := by
            intro hcontra
            exact hnd.1 (by simp [hcontra])
          have : m ∈ agg.pending.filter (fun k => k ≠ n) := by
            simp [List.mem_filter, hmmem, hmn]
          rw [hfil] at this
          cases this
      subst hrest
      have hall : ∀ m ∈ agg.pending, m = n := by
        intro m hm
        by_contra hmn
        have : m ∈ agg.pending.filter (fun k => k ≠ n) := by
          simp [List.mem_filter, hm, hmn]
        rw [hfil] at this
        cases this
      simp only [run_collect, collect_result, hres]
      simp [hall]
      exact hall

/-- Inverting the dispatch: a pending aggregate is created exactly when
some worker is enabled, with empty results and the enabled names
outstanding. -/
theorem route_aggregate_inv (workers : List String) (reg : Registry)
    (camera_id : String) (frame : Option Frame) (scale_factor ts : ℚ)
    (agg : Aggregate)
    (h : (route_frame_to_workers workers reg camera_id frame scale_factor
        ts).aggregate = some agg) :
    agg.results = [] ∧ agg.pending = enabled_workers workers reg ∧
      enabled_workers workers reg ≠ [] := by
  unfold route_frame_to_workers at h
  rcases hemp : (enabled_workers workers reg).isEmpty with _ | _
  · rw [hemp] at h
    simp only [Bool.false_eq_true, if_false, Option.some.injEq] at h
    subst h
    refine ⟨rfl, rfl, ?_⟩
    intro hcontra
    rw [hcontra] at hemp
    simp at hemp
  · rw [hemp] at h
    simp at h

/-- Truncation toward zero agrees with the floor on non-negative inputs. -/
theorem pyInt_toNat_cast_of_nonneg (q : ℚ) (h : 0 ≤ q) :
    ((pyInt q).toNat : ℤ) = ⌊q⌋ := by
  rw [pyInt, if_pos h, Int.toNat_of_nonneg (Int.floor_nonneg.mpr h)]

/-! ## Claim theorems -/

/-- Claim C10: `resize_frame_for_processing` returns its input unchanged
whenever the frame is `None` or the scale factor is at most 0; for every
real frame and positive scale factor `s`, the returned frame has width
`⌊width * s⌋` and height `⌊height * s⌋` (Python `int()` truncates toward
zero, which is the floor on these non-negative products). -/
theorem resize_frame_spec (frame : Option Frame) (scale_factor : ℚ) :
    ((frame = none ∨ scale_factor ≤ 0) →
      resize_frame_for_processing frame scale_factor = frame) ∧
    (∀ f : Frame, frame = some f → 0 < scale_factor →
      ∃ g : Frame,
        resize_frame_for_processing frame scale_factor = some g ∧
        (g.width : ℤ) = ⌊(f.width : ℚ) * scale_factor⌋ ∧
        (g.height : ℤ) = ⌊(f.height : ℚ) * scale_factor⌋) := by
  constructor
  · rintro (h | h)
    · subst h; rfl
    · cases frame with
      | none => rfl
      | some f => simp [resize_frame_for_processing, h]
  · rintro f rfl hpos
    have hns : ¬ scale_factor ≤ 0 := not_le.mpr hpos
    refine ⟨{ height := (pyInt ((f.height : ℚ) * scale_factor)).toNat,
              width := (pyInt ((f.width : ℚ) * scale_factor)).toNat },
      by simp [resize_frame_for_processing, hns], ?_, ?_⟩
    · exact pyInt_toNat_cast_of_nonneg _
        (mul_nonneg (Nat.cast_nonneg _) hpos.le)
    · exact pyInt_toNat_cast_of_nonneg _
        (mul_nonneg (Nat.cast_nonneg _) hpos.le)

/-- Witness for C10 at a 640x480 frame and scale 1/2 (and the unchanged
case at scale 0). -/
theorem resize_frame_spec_witness :
    resize_frame_for_processing (some ⟨480, 640⟩) 0 = some ⟨480, 640⟩ ∧
    ∃ g : Frame,
      resize_frame_for_processing (some ⟨480, 640⟩) (1 / 2) = some g ∧
      (g.width : ℤ) = ⌊(((480, 640) : Nat × Nat).2 : ℚ) * (1 / 2)⌋ ∧
      (g.height : ℤ) = ⌊(((480, 640) : Nat × Nat).1 : ℚ) * (1 / 2)⌋ := by
  constructor
  · exact (resize_frame_spec (some ⟨480, 640⟩) 0).1 (Or.inr le_rfl)
  · exact (resize_frame_spec (some ⟨480, 640⟩) (1 / 2)).2 ⟨480, 640⟩ rfl
      (by norm_num)

/-- Claim C3: `add_job` never blocks and never lets the queue exceed the
fixed capacity of 100 (the capacity `BaseWorker.__init__` gives every
worker): below capacity the job is appended and `True` is returned; at
capacity the newest job is rejected, the worker is untouched and `False`
is returned. -/
theorem add_job_nonblocking_capacity (worker_name camera_id : String)
    (frame : Option Frame) (timestamp : ℚ) (has_callback : Bool)
    (w : BaseWorker) (hcap : w.maxsize = 100)
    (hinv : w.job_queue.length ≤ 100) :
    (BaseWorker.init worker_name).maxsize = 100 ∧
    ((w.add_job camera_id frame timestamp has_callback).1).job_queue.length
      ≤ 100 ∧
    (w.job_queue.length < 100 →
      (w.add_job camera_id frame timestamp has_callback).2 = true ∧
      ((w.add_job camera_id frame timestamp has_callback).1).job_queue =
        w.job_queue ++
          [{ camera_id := camera_id, frame := frame, timestamp := timestamp,
             has_callback := has_callback }]) ∧
    (¬ w.job_queue.length < 100 →
      (w.add_job camera_id frame timestamp has_callback).2 = false ∧
      (w.add_job camera_id frame timestamp has_callback).1 = w) := by
  by_cases h : w.job_queue.length < 100
  · refine ⟨rfl, ?_, fun _ => ⟨?_, ?_⟩, fun hc => absurd h hc⟩
    · simp only [BaseWorker.add_job, hcap, h, if_true]
      simp
      omega
    · simp [BaseWorker.add_job, hcap, h]
    · simp [BaseWorker.add_job, hcap, h]
  · refine ⟨rfl, ?_, fun hc => absurd hc h, fun _ => ⟨?_, ?_⟩⟩
    · simp only [BaseWorker.add_job, hcap, h, if_false]
      exact hinv
    · simp [BaseWorker.add_job, hcap, h]
    · simp [BaseWorker.add_job, hcap, h]

/-- Witness for C3 on a freshly initialised worker. -/
theorem add_job_nonblocking_capacity_witness :
    (BaseWorker.init "yolo").maxsize = 100 ∧
    ((BaseWorker.init "yolo").add_job "0" none 0 true).2 = true ∧
    (((BaseWorker.init "yolo").add_job "0" none 0 true).1).job_queue.length
      ≤ 100 := by
  have h := add_job_nonblocking_capacity "yolo" "0" none 0 true
    (BaseWorker.init "yolo") rfl (by decide)
  exact ⟨h.1, (h.2.2.1 (by decide)).1, h.2.1⟩

/-- Claim C6 counterexample: submitting to a worker with a full queue
returns `False` and leaves the worker state — queue and every counter —
entirely unchanged, so no dropped-frame counter is incremented (none
exists in `BaseWorker` at all; only a warning is printed). -/
theorem add_job_full_no_counter_increment :
    BaseWorker.add_job
      { name := "blip",
        job_queue := List.replicate 100
          { camera_id := "0", frame := none, timestamp := 0,
            has_callback := true },
        maxsize := 100, frame_count := 7 } "0" none 1 true
    = ({ name := "blip",
         job_queue := List.replicate 100
           { camera_id := "0", frame := none, timestamp := 0,
             has_callback := true },
         maxsize := 100, frame_count := 7 }, false) := by
  decide

/-- Claim C6 (amended): submitting to a worker whose queue is full drops
the job silently — `add_job` returns `False` with the worker unchanged
(so nothing, in particular no dropped-frame counter, is incremented; the
code only prints a warning), and the fan-out router sends no error to the
client: its dispatch sends no message at all when any worker is enabled,
regardless of the ignored `add_job` results. -/
theorem add_job_full_silent_drop (w : BaseWorker) (camera_id : String)
    (frame : Option Frame) (timestamp : ℚ) (has_callback : Bool)
    (hfull : ¬ w.job_queue.length < w.maxsize)
    (workers : List String) (reg : Registry) (cam₂ : String)
    (frame₂ : Option Frame) (scale_factor ts : ℚ)
    (hne : (enabled_workers workers reg).isEmpty = false) :
    w.add_job camera_id frame timestamp has_callback = (w, false) ∧
    (route_frame_to_workers workers reg cam₂ frame₂ scale_factor ts).sent
      = [] := by
  constructor
  · simp [BaseWorker.add_job, hfull]
  · simp [route_frame_to_workers, hne]

/-- Witness for the amended C6 at a full blip worker with yolo and blip
enabled. -/
theorem add_job_full_silent_drop_witness :
    BaseWorker.add_job
      { name := "blip",
        job_queue := List.replicate 100
          { camera_id := "0", frame := none, timestamp := 0,
            has_callback := true },
        maxsize := 100, frame_count := 7 } "0" none 1 true
      = ({ name := "blip",
           job_queue := List.replicate 100
             { camera_id := "0", frame := none, timestamp := 0,
               has_callback := true },
           maxsize := 100, frame_count := 7 }, false) ∧
    (route_frame_to_workers ["yolo", "blip"]
        [("yolo", { enabled := true, display_name := "YOLO Detection" }),
         ("blip", { enabled := true, display_name := "BLIP Captioning" })]
        "0" none (1 / 2) 0).sent = [] :=
  add_job_full_silent_drop
    { name := "blip",
      job_queue := List.replicate 100
        { camera_id := "0", frame := none, timestamp := 0,
          has_callback := true },
      maxsize := 100, frame_count := 7 } "0" none 1 true (by decide)
    ["yolo", "blip"]
    [("yolo", { enabled := true, display_name := "YOLO Detection" }),
     ("blip", { enabled := true, display_name := "BLIP Captioning" })]
    "0" none (1 / 2) 0 (by decide)

/-- Claim C4 counterexample: when `process_frame` raises, the worker loop
invokes no callback at all — the job result sink never receives an `Err`
(or any) result; the exception is only printed. -/
theorem process_loop_error_no_err_emitted :
    (BaseWorker.process_loop_iter
      { name := "yolo",
        job_queue := [{ camera_id := "0", frame := none, timestamp := 0,
                        has_callback := true }],
        maxsize := 100, frame_count := 0 }
      (fun _ => Except.error "CUDA out of memory")).map
        LoopIter.callback_calls = some [] := rfl

/-- Claim C4 (amended): for every job whose processing raises, the worker
prints the error and continues to the next job — a single failing job
never terminates the worker — but it invokes no callback, so no
`ExpertResult.Err` (nor any result) is surfaced through the job result
sink; `frame_count` is left unchanged and the failed job is consumed. -/
theorem process_loop_error_skips_job_and_continues (w : BaseWorker)
    (pf : Job → Except String JVal) (job : Job) (rest : List Job)
    (e : String) (hq : w.job_queue = job :: rest)
    (herr : pf job = Except.error e) :
    w.process_loop_iter pf = some
      { worker := { w with job_queue := rest },
        callback_calls := [],
        errors_logged := [w.name ++ " Worker error: " ++ e],
        continues := true } := by
  simp [BaseWorker.process_loop_iter, hq, herr]

/-- Witness for the amended C4 at a concrete failing job. -/
theorem process_loop_error_skips_job_and_continues_witness :
    BaseWorker.process_loop_iter
      { name := "yolo",
        job_queue := [{ camera_id := "0", frame := none, timestamp := 0,
                        has_callback := true }],
        maxsize := 100, frame_count := 3 }
      (fun _ => Except.error "CUDA out of memory") = some
      { worker := { name := "yolo", job_queue := [], maxsize := 100,
                    frame_count := 3 },
        callback_calls := [],
        errors_logged := ["yolo Worker error: CUDA out of memory"],
        continues := true } :=
  process_loop_error_skips_job_and_continues
    { name := "yolo",
      job_queue := [{ camera_id := "0", frame := none, timestamp := 0,
                      has_callback := true }],
      maxsize := 100, frame_count := 3 }
    (fun _ => Except.error "CUDA out of memory")
    { camera_id := "0", frame := none, timestamp := 0, has_callback := true }
    [] "CUDA out of memory" rfl rfl

/-- Claim C5: when no workers are enabled, the fan-out router immediately
sends the client the empty result `{camera_id, results: {}, timestamp}`,
submits no job to any worker and creates no pending aggregate. -/
theorem route_empty_enabled_short_circuit (workers : List String)
    (reg : Registry) (camera_id : String) (frame : Option Frame)
    (scale_factor ts : ℚ) (h : enabled_workers workers reg = []) :
    route_frame_to_workers workers reg camera_id frame scale_factor ts =
      { sent := [SentMsg.emptyResult camera_id ts], jobs := [],
        processed := none, aggregate := none } := by
  simp [route_frame_to_workers, h]

/-- Witness for C5 with both models toggled off. -/
theorem route_empty_enabled_short_circuit_witness :
    route_frame_to_workers ["yolo", "blip"]
      [("yolo", { enabled := false, display_name := "YOLO Detection" }),
       ("blip", { enabled := false, display_name := "BLIP Captioning" })]
      "0" none (1 / 2) 0 =
      { sent := [SentMsg.emptyResult "0" 0], jobs := [],
        processed := none, aggregate := none } :=
  route_empty_enabled_short_circuit ["yolo", "blip"]
    [("yolo", { enabled := false, display_name := "YOLO Detection" }),
     ("blip", { enabled := false, display_name := "BLIP Captioning" })]
    "0" none (1 / 2) 0 (by decide)

/-- A worker receives a job for the fan-out frame iff it is currently
enabled: the enabled set is recomputed from the registry on each call. -/
theorem mem_jobs_iff (workers : List String) (reg : Registry)
    (camera_id : String) (frame : Option Frame) (scale_factor ts : ℚ)
    (w : String) :
    w ∈ (route_frame_to_workers workers reg camera_id frame scale_factor
      ts).jobs ↔ w ∈ enabled_workers workers reg := by
  unfold route_frame_to_workers
  rcases hemp : (enabled_workers workers reg).isEmpty with _ | _
  · simp [hemp]
  · rw [List.isEmpty_iff] at hemp
    simp [hemp]

/-- Membership in the enabled set, unfolded. -/
theorem mem_enabled_iff (workers : List String) (reg : Registry)
    (w : String) :
    w ∈ enabled_workers workers reg ↔
      w ∈ workers ∧
        ∃ t, lookupD reg (pyLower w) = some t ∧ t.enabled = true := by
  unfold enabled_workers
  rw [List.mem_filter]
  cases h : lookupD reg (pyLower w) with
  | none => simp [h]
  | some t => simp [h]

/-- Claim C1: for every fan-out dispatch, at most one combined result is
ever delivered for the dispatched frame: a worker name is discarded from
the pending set when its result arrives and the combined send happens only
when the set empties, and each enabled worker reports at most once (one
loop iteration invokes the callback at most once for its single job), so
no later callback can trigger a second combined send. -/
theorem fanout_at_most_one_combined (workers : List String) (reg : Registry)
    (camera_id : String) (frame : Option Frame) (scale_factor ts : ℚ)
    (agg : Aggregate)
    (hagg : (route_frame_to_workers workers reg camera_id frame scale_factor
      ts).aggregate = some agg)
    (events : List (String × JVal))
    (hnd : (events.map Prod.fst).Nodup)
    (hsub : ∀ n ∈ events.map Prod.fst, n ∈ agg.pending) :
    ((run_collect agg events).2).length ≤ 1 ∧
    (∀ (w : BaseWorker) (pf : Job → Except String JVal) (it : LoopIter),
      w.process_loop_iter pf = some it → it.callback_calls.length ≤ 1) := by
  refine ⟨run_collect_length_le_one events agg hnd hsub, ?_⟩
  intro w pf it hit
  unfold BaseWorker.process_loop_iter at hit
  rcases hq : w.job_queue with _ | ⟨job, rest⟩
  · rw [hq] at hit; cases hit
  · rw [hq] at hit
    rcases hpf : pf job with e | r
    · simp only [hpf, Option.some.injEq] at hit
      subst hit
      simp
    · simp only [hpf, Option.some.injEq] at hit
      subst hit
      rcases hcb : job.has_callback with _ | _ <;> simp [hcb]

/-- Witness for C1: both enabled workers respond once; exactly one
combined result is sent. -/
theorem fanout_at_most_one_combined_witness :
    ((run_collect { results := [], pending := ["yolo", "blip"] }
        [("yolo", JVal.obj []), ("blip", JVal.obj [])]).2).length ≤ 1 :=
  (fanout_at_most_one_combined ["yolo", "blip"]
    [("yolo", { enabled := true, display_name := "YOLO Detection" }),
     ("blip", { enabled := true, display_name := "BLIP Captioning" })]
    "0" none (1 / 2) 0 { results := [], pending := ["yolo", "blip"] } rfl
    [("yolo", JVal.obj []), ("blip", JVal.obj [])] (by decide)
    (by decide)).1

/-- Claim C2 counterexample: yolo and blip are both enabled (N = 2) but
only yolo ever responds (K = 1): no combined result is ever delivered —
there is no timeout that completes the aggregate with a 1-entry partial
map (only the `collect_result` callbacks can send one). -/
theorem fanout_missing_worker_no_partial_result :
    (route_frame_to_workers ["yolo", "blip"]
        [("yolo", { enabled := true, display_name := "YOLO Detection" }),
         ("blip", { enabled := true, display_name := "BLIP Captioning" })]
        "0" none (1 / 2) 0).aggregate
      = some { results := [], pending := ["yolo", "blip"] } ∧
    (run_collect { results := [], pending := ["yolo", "blip"] }
        [("yolo", JVal.obj [])]).2 = [] :=
  ⟨rfl, rfl⟩

/-- Claim C2 (amended): no per-aggregate timeout exists.  If all N enabled
workers respond, exactly one combined result is delivered and its
`results` map has exactly N entries (the N responses, in arrival order);
if only K < N workers ever respond, no combined result is ever delivered
for the frame — the aggregate stays pending forever. -/
theorem fanout_complete_or_nothing (workers : List String) (reg : Registry)
    (camera_id : String) (frame : Option Frame) (scale_factor ts : ℚ)
    (agg : Aggregate) (hw : workers.Nodup)
    (hagg : (route_frame_to_workers workers reg camera_id frame scale_factor
      ts).aggregate = some agg)
    (events : List (String × JVal))
    (hnd : (events.map Prod.fst).Nodup)
    (hsub : ∀ n ∈ events.map Prod.fst, n ∈ agg.pending) :
    ((∀ n ∈ agg.pending, n ∈ events.map Prod.fst) →
      (run_collect agg events).2 = [events] ∧
      events.length = agg.pending.length) ∧
    ((∃ n, n ∈ agg.pending ∧ n ∉ events.map Prod.fst) →
      (run_collect agg events).2 = []) := by
  obtain ⟨hres, hpend, hne⟩ := route_aggregate_inv workers reg camera_id
    frame scale_factor ts agg hagg
  constructor
  · intro hcov
    constructor
    · have hout := run_collect_complete events agg
        (by rw [hpend]; exact hne) hnd hsub hcov
        (by intro n _; rw [hres]; rfl)
      rw [hres] at hout
      simpa using hout
    · have hpnd : agg.pending.Nodup := by
        rw [hpend]
        exact hw.filter _
      have h₁ : (events.map Prod.fst).length ≤ agg.pending.length :=
        (hnd.subperm hsub).length_le
      have h₂ : agg.pending.length ≤ (events.map Prod.fst).length :=
        (hpnd.subperm hcov).length_le
      have hlen := le_antisymm h₁ h₂
      simpa using hlen
  · rintro ⟨n, hn, hnot⟩
    exact run_collect_sends_nil events agg n hn hnot

/-- Witness for the amended C2: both workers respond, one combined result
with exactly 2 entries goes out; and with blip missing, none does. -/
theorem fanout_complete_or_nothing_witness :
    ((run_collect { results := [], pending := ["yolo", "blip"] }
        [("yolo", JVal.obj []), ("blip", JVal.obj [])]).2
      = [[("yolo", JVal.obj []), ("blip", JVal.obj [])]] ∧
      ([("yolo", JVal.obj []), ("blip", JVal.obj [])] :
        List (String × JVal)).length
        = (["yolo", "blip"] : List String).length) ∧
    (run_collect { results := [], pending := ["yolo", "blip"] }
        [("blip", JVal.obj [])]).2 = [] :=
  ⟨(fanout_complete_or_nothing ["yolo", "blip"]
      [("yolo", { enabled := true, display_name := "YOLO Detection" }),
       ("blip", { enabled := true, display_name := "BLIP Captioning" })]
      "0" none (1 / 2) 0 { results := [], pending := ["yolo", "blip"] }
      (by decide) rfl [("yolo", JVal.obj []), ("blip", JVal.obj [])]
      (by decide) (by decide)).1 (by decide),
   (fanout_complete_or_nothing ["yolo", "blip"]
      [("yolo", { enabled := true, display_name := "YOLO Detection" }),
       ("blip", { enabled := true, display_name := "BLIP Captioning" })]
      "0" none (1 / 2) 0 { results := [], pending := ["yolo", "blip"] }
      (by decide) rfl [("blip", JVal.obj [])] (by decide) (by decide)).2
     ⟨"yolo", by decide, by decide⟩⟩

/-- Claim C7: the enabled set is recomputed from the global toggle
registry at every dispatch, so once `toggle_model` disables a model, a
worker of that name receives no job on any subsequent dispatch, and once
it re-enables the model the worker is routed to again on the very next
frame. -/
theorem toggle_governs_next_dispatch (reg : Registry) (model_name : String)
    (t : ModelToggle) (w : String) (workers : List String)
    (camera_id : String) (frame : Option Frame) (scale_factor ts : ℚ)
    (hlook : lookupD reg model_name = some t)
    (hlow : pyLower w = model_name) :
    (w ∉ (route_frame_to_workers workers
      (toggle_model reg model_name (some false)).1 camera_id frame
      scale_factor ts).jobs) ∧
    (w ∈ workers →
      w ∈ (route_frame_to_workers workers
        (toggle_model reg model_name (some true)).1 camera_id frame
        scale_factor ts).jobs) := by
  have htog : ∀ b : Bool, (toggle_model reg model_name (some b)).1
      = dictSet reg model_name { t with enabled := b } := by
    intro b
    simp [toggle_model, hlook]
  constructor
  · intro hmem
    rw [mem_jobs_iff, mem_enabled_iff] at hmem
    obtain ⟨-, t₂, ht₂, hen⟩ := hmem
    rw [hlow, htog false, lookupD_dictSet_self] at ht₂
    cases ht₂
    simp at hen
  · intro hw
    rw [mem_jobs_iff, mem_enabled_iff]
    refine ⟨hw, { t with enabled := true }, ?_, rfl⟩
    rw [hlow, htog true]
    exact lookupD_dictSet_self reg model_name { t with enabled := true }

/-- Witness for C7: after toggling yolo off, the yolo worker gets no job;
after toggling it back on, it is routed to again. -/
theorem toggle_governs_next_dispatch_witness :
    ("yolo" ∉ (route_frame_to_workers ["yolo", "blip"]
      (toggle_model
        [("yolo", { enabled := true, display_name := "YOLO Detection" }),
         ("blip", { enabled := true, display_name := "BLIP Captioning" })]
        "yolo" (some false)).1 "0" none (1 / 2) 0).jobs) ∧
    "yolo" ∈ (route_frame_to_workers ["yolo", "blip"]
      (toggle_model
        [("yolo", { enabled := true, display_name := "YOLO Detection" }),
         ("blip", { enabled := true, display_name := "BLIP Captioning" })]
        "yolo" (some true)).1 "0" none (1 / 2) 0).jobs := by
  have h := toggle_governs_next_dispatch
    [("yolo", { enabled := true, display_name := "YOLO Detection" }),
     ("blip", { enabled := true, display_name := "BLIP Captioning" })]
    "yolo" { enabled := true, display_name := "YOLO Detection" } "yolo"
    ["yolo", "blip"] "0" none (1 / 2) 0 rfl (by decide)
  exact ⟨h.1, h.2 (by decide)⟩

/-- Claim C8 (the `YOLOWorker` carrying out the request is modelled from
the spec, see `YOLOWorker.process_frame`): a completed single-expert
request delivers the worker result verbatim — the raw `ExpertResult`
payload — and for a request from camera "cam1" to expert "yolo" that
payload carries a `detections` list, an `fps` field and
`camera_id = "cam1"`. -/
theorem single_expert_yolo_raw_response (infer : Option Frame → List JVal)
    (fps : ℚ) (frame : Option Frame) (scale_factor ts : ℚ) :
    (∀ pf : Job → JVal,
      single_expert_exchange [("yolo", pf)] "cam1" frame "yolo" scale_factor
        ts = some (pf { camera_id := "cam1",
                        frame := resize_frame_for_processing frame
                          scale_factor,
                        timestamp := ts, has_callback := true })) ∧
    single_expert_exchange [("yolo", YOLOWorker.process_frame infer fps)]
        "cam1" frame "yolo" scale_factor ts
      = some (JVal.obj
          [("detections",
            JVal.arr (infer (resize_frame_for_processing frame
              scale_factor))),
           ("fps", JVal.n fps),
           ("camera_id", JVal.s "cam1")]) :=
  ⟨fun _ => rfl, rfl⟩

/-- Claim C9: if an enabled worker rejects the fan-out submission because
its queue is full, no combined result is ever delivered for that frame:
the `False` return of `add_job` is ignored, the rejecting worker can never
report (it never holds the job), so its name is never discarded from the
pending set and the responses of the accepting workers are never sent. -/
theorem rejected_submission_blocks_combined (workers : List String)
    (reg : Registry) (camera_id : String) (frame : Option Frame)
    (scale_factor ts : ℚ) (agg : Aggregate) (queues : String → BaseWorker)
    (hagg : (route_frame_to_workers workers reg camera_id frame scale_factor
      ts).aggregate = some agg)
    (r : String) (hr : r ∈ agg.pending)
    (hrej : ((queues r).add_job camera_id
      (route_frame_to_workers workers reg camera_id frame scale_factor
        ts).processed ts true).2 = false)
    (events : List (String × JVal))
    (hev : ∀ n ∈ events.map Prod.fst,
      n ∈ submit_jobs queues agg.pending camera_id
        (route_frame_to_workers workers reg camera_id frame scale_factor
          ts).processed ts) :
    (run_collect agg events).2 = [] := by
  refine run_collect_sends_nil events agg r hr ?_
  intro hcontra
  have hmem := hev r hcontra
  rw [submit_jobs, List.mem_filter] at hmem
  rw [hrej] at hmem
  exact Bool.false_ne_true hmem.2

/-- Witness for C9: blip is full and rejects, yolo accepts and responds;
no combined result goes out. -/
theorem rejected_submission_blocks_combined_witness :
    (run_collect { results := [], pending := ["yolo", "blip"] }
        [("yolo", JVal.obj [])]).2 = [] :=
  rejected_submission_blocks_combined ["yolo", "blip"]
    [("yolo", { enabled := true, display_name := "YOLO Detection" }),
     ("blip", { enabled := true, display_name := "BLIP Captioning" })]
    "0" none (1 / 2) 0 { results := [], pending := ["yolo", "blip"] }
    (fun n =>
      if n = "blip" then
        { name := "blip",
          job_queue := List.replicate 100
            { camera_id := "0", frame := none, timestamp := 0,
              has_callback := true },
          maxsize := 100, frame_count := 0 }
      else BaseWorker.init n)
    rfl "blip" (by decide) (by decide) [("yolo", JVal.obj [])] (by decide)

end Moe
